import Mathlib

/-
Verification development for the Araknid block-based C code editor.
We give a shallow embedding of the block-graph data model, the per-block
fragment generators (`generate_code_self` of every block kind), the
recursive placeholder-expanding traversal (`Block.generate_code`), the
top-level linearizer (`CodeGenerator.generate_code`), and the
connection-point state machine (`ConnectionPoint.connect_to`,
`Block.connect_points`, `ConnectionPoint._disconnect_blocks`, and the
connection-severing loop of `Canvas.delete_selected`), and prove the
specified properties about them.
-/

namespace Araknid

/-! ### Python string primitives used by the source -/

/-- The six characters Python's `str.strip` treats as whitespace. -/
def pyIsSpace (c : Char) : Bool :=
  c == Char.ofNat 32 || c == Char.ofNat 9 || c == Char.ofNat 10 ||
  c == Char.ofNat 13 || c == Char.ofNat 11 || c == Char.ofNat 12

/-- Python `str.strip` on a character list: drop whitespace from both ends. -/
def pyStripL (l : List Char) : List Char :=
  ((l.dropWhile pyIsSpace).reverse.dropWhile pyIsSpace).reverse

/-- Python `str.strip`. -/
def pyStrip (s : String) : String := String.mk (pyStripL s.data)

/-- Does the first list start with the second one? -/
def leadMatch : List Char → List Char → Bool
  | _, [] => true
  | [], _ :: _ => false
  | c :: cs, p :: ps => c == p && leadMatch cs ps

/-- Substring occurrence test on character lists (Python `pat in s`). -/
def containsSub : List Char → List Char → Bool
  | [], pat => pat == []
  | c :: cs, pat => leadMatch (c :: cs) pat || containsSub cs pat

/-- Python `pat in s` for strings. -/
def pyContains (s pat : String) : Bool := containsSub s.data pat.data

/-- Python `str.startswith`. -/
def pyStartswith (s pat : String) : Bool := leadMatch s.data pat.data

/-- Python `str.endswith`. -/
def pyEndswith (s pat : String) : Bool := leadMatch s.data.reverse pat.data.reverse

/-- Left-to-right non-overlapping replacement of `pat` by `rep`
(the behaviour of Python `str.replace`), on character lists, with fuel
(each step consumes at least one source character, so fuel equal to the
source length never runs out).  `pat` is assumed non-empty (all
placeholder patterns are). -/
def pyReplaceF (pat rep : List Char) : List Char → Nat → List Char
  | l, 0 => l
  | [], _ + 1 => []
  | c :: cs, fuel + 1 =>
    if pat ≠ [] ∧ leadMatch (c :: cs) pat then
      rep ++ pyReplaceF pat rep (List.drop (pat.length - 1) cs) fuel
    else
      c :: pyReplaceF pat rep cs fuel

/-- Left-to-right non-overlapping replacement of `pat` by `rep` on
character lists (Python `str.replace`). -/
def pyReplaceL (pat rep : List Char) (l : List Char) : List Char :=
  pyReplaceF pat rep l l.length

/-- Python `str.replace` (replace every occurrence). -/
def pyReplace (s pat rep : String) : String :=
  String.mk (pyReplaceL pat.data rep.data s.data)

/-- Split a character list on a separator character (Python `str.split(sep)`). -/
def splitOnChar (c : Char) : List Char → List (List Char)
  | [] => [[]]
  | x :: xs =>
    let r := splitOnChar c xs
    if x == c then [] :: r
    else
      match r with
      | [] => [[x]]
      | h :: t => (x :: h) :: t

/-- The filter `any(line.strip() for line in code.split('\n'))` used by the
linearizer: does some line of the string hold a non-whitespace character? -/
def pyAnyStrippedLine (s : String) : Bool :=
  (splitOnChar (Char.ofNat 10) s.data).any (fun l => pyStripL l ≠ [])

/-- `" " * indent` — the indentation string. -/
def sp (n : Nat) : String := String.mk (List.replicate n (Char.ofNat 32))

/-! ### The block-graph data model

Blocks are nodes with a kind (carrying the current values of the block's
editable fields) and five connection slots (`connected_blocks` in the
source), each holding the id of the connected block or nothing. -/

/-- Connection-point roles (`TOP`, `BOTTOM`, `INNER`, `LEFT`, `RIGHT`). -/
inductive Role
  | TOP
  | BOTTOM
  | INNER
  | LEFT
  | RIGHT
  deriving DecidableEq, Fintype

/-- The block kinds of the catalog, with their editable field values. -/
inductive BKind
  | IncludeBlock (header isSystem : String)
  | FunctionDeclarationBlock (ret nm params : String)
  | FunctionCallBlock (nm args : String)
  | ReturnBlock (vl : String)
  | MainFunctionBlock
  | IfBlock (cond : String)
  | ElseBlock
  | ForLoopBlock (init cond update : String)
  | WhileLoopBlock (cond : String)
  | BreakBlock
  | ContinueBlock
  | PrintBlock (fmt args : String)
  | ScanBlock (fmt args : String)
  | PrintfNewlineBlock
  | PrintStringBlock (vl : String)
  | VariableDeclarationBlock (ty nm : String)
  | VariableAssignmentBlock (vr vl : String)
  | ArrayDeclarationBlock (ty nm size : String)
  | AssignmentOperatorBlock (vr vl : String)
  | IncrementDecrementBlock (vr op : String)
  | OperatorBlock (op : String)
  | LogicalOperatorBlock (op : String)
  | ArrayAccessBlock (arr idx : String)
  | TernaryOperatorBlock (cond tv fv : String)
  deriving DecidableEq

/-- A block: identity, kind/fields, and the `connected_blocks` mapping. -/
structure BNode where
  id : Nat
  kind : BKind
  top : Option Nat := none
  bottom : Option Nat := none
  inner : Option Nat := none
  left : Option Nat := none
  right : Option Nat := none
  deriving DecidableEq

/-- A block graph: the collection of blocks. -/
abbrev Graph := List BNode

/-- Find the block with a given id. -/
def lookupBlock (g : Graph) (i : Nat) : Option BNode :=
  g.find? (fun b => b.id == i)

/-- `connected_blocks[role]` of a block. -/
def connOf (b : BNode) (r : Role) : Option Nat :=
  match r with
  | .TOP => b.top
  | .BOTTOM => b.bottom
  | .INNER => b.inner
  | .LEFT => b.left
  | .RIGHT => b.right

/-- `connected_blocks[role]` of the block with a given id. -/
def conn (g : Graph) (i : Nat) (r : Role) : Option Nat :=
  match lookupBlock g i with
  | some b => connOf b r
  | none => none

/-- `isinstance(block, ReturnBlock)`. -/
def isReturnBlock (g : Graph) (i : Nat) : Bool :=
  match lookupBlock g i with
  | some b =>
    match b.kind with
    | .ReturnBlock _ => true
    | _ => false
  | none => false

/-! ### Placeholder markers -/

def innerPH : String := "\x7b\x7bINNER_CODE\x7d\x7d"
def bottomPH : String := "\x7b\x7bBOTTOM_CODE\x7d\x7d"
def leftPH : String := "\x7b\x7bLEFT_CODE\x7d\x7d"
def rightPH : String := "\x7b\x7bRIGHT_CODE\x7d\x7d"

/-! ### `MainFunctionBlock._has_return_statement`

The source walks the chain `current = connected_blocks[INNER]`;
`while current: if isinstance(current, ReturnBlock): return True;
current = current.connected_blocks[current.BOTTOM]` — with no visited
set.  We model the loop with explicit fuel; `none` means the fuel ran
out, which for fuel exceeding the number of blocks can only happen when
the chain revisits a block, i.e. when the Python loop runs forever. -/

def hasReturnLoop (g : Graph) : Option Nat → Nat → Option Bool
  | _, 0 => none
  | none, _ + 1 => some false
  | some i, fuel + 1 =>
    if isReturnBlock g i then some true
    else hasReturnLoop g (conn g i .BOTTOM) fuel

/-- `MainFunctionBlock._has_return_statement`, run with enough fuel that
`none` is returned exactly when the source's unguarded `while` loop
diverges. -/
def hasReturnStatement (g : Graph) (b : BNode) : Option Bool :=
  hasReturnLoop g (connOf b .INNER) (g.length + 2)

/-! ### `generate_code_self` of every block kind -/

/-- The per-kind `generate_code_self(indent)` fragment generators.
`none` is produced only by the Main kind, when its Return-statement
search diverges.  The Operator/Logical/ArrayAccess/Ternary kinds append
the BOTTOM placeholder only when `connected_blocks[BOTTOM]` is set, and
the Main kind injects `return 0;` when its search finds no Return block,
exactly as in the source.  Note on braces: the Operator and Logical
fragments are built by Python f-strings, in which a doubled brace
renders as a single brace — their LEFT/RIGHT markers therefore come out
single-braced, unlike the double-braced placeholders appended via plain
strings, and the traversal's double-braced replacement never matches
them. -/
def genSelf (g : Graph) (b : BNode) (indent : Nat) : Option String :=
  match b.kind with
  | .IncludeBlock header isSystem =>
    some ((if isSystem == "yes" then "#include <" ++ header ++ ">\n"
           else "#include \"" ++ header ++ "\"\n") ++ bottomPH)
  | .FunctionDeclarationBlock ret nm params =>
    some (sp indent ++ ret ++ " " ++ nm ++ "(" ++ params ++ ") \x7b\n" ++
          innerPH ++ sp indent ++ "\x7d\n\n" ++ bottomPH)
  | .FunctionCallBlock nm args =>
    some (sp indent ++ nm ++ "(" ++ args ++ ");\n" ++ bottomPH)
  | .ReturnBlock vl =>
    some ((if vl ≠ "" then sp indent ++ "return " ++ vl ++ ";\n"
           else sp indent ++ "return;\n") ++ bottomPH)
  | .MainFunctionBlock =>
    match hasReturnStatement g b with
    | none => none
    | some r =>
      some (sp indent ++ "int main() \x7b\n" ++ innerPH ++
            (if r then "" else sp (indent + 4) ++ "return 0;\n") ++
            sp indent ++ "\x7d\n\n" ++ bottomPH)
  | .IfBlock cond =>
    some (sp indent ++ "if (" ++ cond ++ ") \x7b\n" ++ innerPH ++
          sp indent ++ "\x7d\n" ++ bottomPH)
  | .ElseBlock =>
    some (sp indent ++ "else \x7b\n" ++ innerPH ++ sp indent ++ "\x7d\n" ++ bottomPH)
  | .ForLoopBlock init cond update =>
    some (sp indent ++ "for (" ++ init ++ "; " ++ cond ++ "; " ++ update ++ ") \x7b\n" ++
          innerPH ++ sp indent ++ "\x7d\n" ++ bottomPH)
  | .WhileLoopBlock cond =>
    some (sp indent ++ "while (" ++ cond ++ ") \x7b\n" ++ innerPH ++
          sp indent ++ "\x7d\n" ++ bottomPH)
  | .BreakBlock => some (sp indent ++ "break;\n" ++ bottomPH)
  | .ContinueBlock => some (sp indent ++ "continue;\n" ++ bottomPH)
  | .PrintBlock fmt args =>
    some ((if pyStrip args ≠ "" then sp indent ++ "printf(" ++ fmt ++ ", " ++ args ++ ");\n"
           else sp indent ++ "printf(" ++ fmt ++ ");\n") ++ bottomPH)
  | .ScanBlock fmt args =>
    some (sp indent ++ "scanf(" ++ fmt ++ ", " ++ args ++ ");\n" ++ bottomPH)
  | .PrintfNewlineBlock =>
    some (sp indent ++ "printf(\"\\n\");\n" ++ bottomPH)
  | .PrintStringBlock vl =>
    let text := if !(pyStartswith vl "\"" && pyEndswith vl "\"") then "\"" ++ vl ++ "\"" else vl
    some (sp indent ++ "printf(" ++ text ++ ");\n" ++ bottomPH)
  | .VariableDeclarationBlock ty nm =>
    some (sp indent ++ ty ++ " " ++ nm ++ ";\n" ++ bottomPH)
  | .VariableAssignmentBlock vr vl =>
    some (sp indent ++ vr ++ " = " ++ vl ++ ";\n" ++ bottomPH)
  | .ArrayDeclarationBlock ty nm size =>
    some (sp indent ++ ty ++ " " ++ nm ++ "[" ++ size ++ "];\n" ++ bottomPH)
  | .AssignmentOperatorBlock vr vl =>
    some (sp indent ++ vr ++ " = " ++ vl ++ ";\n" ++ bottomPH)
  | .IncrementDecrementBlock vr op =>
    some (sp indent ++ vr ++ op ++ ";\n" ++ bottomPH)
  | .OperatorBlock op =>
    let code := "(\x7bLEFT_CODE\x7d " ++ op ++ " \x7bRIGHT_CODE\x7d)"
    some (if (connOf b .BOTTOM).isSome then code ++ "\n" ++ sp indent ++ bottomPH else code)
  | .LogicalOperatorBlock op =>
    let code := if op == "!" then "(!\x7bLEFT_CODE\x7d)"
                else "(\x7bLEFT_CODE\x7d " ++ op ++ " \x7bRIGHT_CODE\x7d)"
    some (if (connOf b .BOTTOM).isSome then code ++ "\n" ++ sp indent ++ bottomPH else code)
  | .ArrayAccessBlock arr idx =>
    let code := arr ++ "[" ++ idx ++ "]"
    some (if (connOf b .BOTTOM).isSome then code ++ "\n" ++ sp indent ++ bottomPH else code)
  | .TernaryOperatorBlock cond tv fv =>
    let code := "(" ++ cond ++ " ? " ++ tv ++ " : " ++ fv ++ ")"
    some (if (connOf b .BOTTOM).isSome then code ++ "\n" ++ sp indent ++ bottomPH else code)

/-! ### `Block.generate_code`: the placeholder-expanding traversal

The Python method threads one mutable `processed_blocks` set through all
recursive calls; we thread it explicitly as a list of ids.  Fuel bounds
the recursion depth; since every recursive call strictly grows the
processed set, fuel `g.length + 2` can never run out (the source's
recursion always terminates) — `none` arises only from a diverging
Return-statement search inside a Main block's `generate_code_self`. -/

def Block.generate_code (g : Graph) :
    Nat → Nat → Nat → List Nat → Option (String × List Nat)
  | 0, _, _, _ => none
  | fuel + 1, i, indent, processed =>
    if i ∈ processed then some ("", processed)
    else
      let processed := i :: processed
      match lookupBlock g i with
      | none => some ("", processed)
      | some b => do
        let code ← genSelf g b indent
        let (code, processed) ←
          match pyContains code innerPH, connOf b .INNER with
          | true, some j => do
            let (ic, p) ← Block.generate_code g fuel j (indent + 4) processed
            pure (pyReplace code innerPH ic, p)
          | _, _ => pure (pyReplace code innerPH "", processed)
        let (code, processed) ←
          match pyContains code bottomPH, connOf b .BOTTOM with
          | true, some j => do
            let (bc, p) ← Block.generate_code g fuel j indent processed
            pure (pyReplace code bottomPH bc, p)
          | _, _ => pure (pyReplace code bottomPH "", processed)
        let (code, processed) ←
          match pyContains code leftPH, connOf b .LEFT with
          | true, some j => do
            let (lc, p) ← Block.generate_code g fuel j 0 processed
            let lc := pyStrip lc
            pure (pyReplace code leftPH (if lc == "" then "a" else lc), p)
          | _, _ => pure (pyReplace code leftPH "a", processed)
        let (code, processed) ←
          match pyContains code rightPH, connOf b .RIGHT with
          | true, some j => do
            let (rc, p) ← Block.generate_code g fuel j 0 processed
            let rc := pyStrip rc
            pure (pyReplace code rightPH (if rc == "" then "b" else rc), p)
          | _, _ => pure (pyReplace code rightPH "b", processed)
        pure (code, processed)

/-- The fuel with which every traversal is run: more than the number of
blocks, so exhaustion is impossible for the processed-set recursion. -/
def genFuel (g : Graph) : Nat := g.length + 2

/-! ### `CodeGenerator.generate_code`: the three-section linearizer -/

/-- The generator's only instance state: the `includes` set (reset at the
start of every generation and never consulted for the output). -/
structure GenState where
  includes : List String
  deriving DecidableEq

def isIncludeKind (b : BNode) : Bool :=
  match b.kind with
  | .IncludeBlock _ _ => true
  | _ => false

def isFunctionKind (b : BNode) : Bool :=
  match b.kind with
  | .FunctionDeclarationBlock _ _ _ => true
  | .MainFunctionBlock => true
  | _ => false

/-- The root loop of `CodeGenerator.generate_code`: walk the root blocks,
skipping already-processed ones, and partition the generated fragments
into the include / function / global section lists. -/
def processRoots (g : Graph) :
    List Nat → List Nat → List String → List String → List String →
    Option (List String × List String × List String)
  | [], _, incs, fns, gls => some (incs, fns, gls)
  | i :: rest, processed, incs, fns, gls =>
    if i ∈ processed then processRoots g rest processed incs fns gls
    else
      match lookupBlock g i with
      | none => processRoots g rest processed incs fns gls
      | some b =>
        match Block.generate_code g (genFuel g) i 0 processed with
        | none => none
        | some (code, p) =>
          if isIncludeKind b then
            processRoots g rest p (incs ++ (if code ≠ "" then [code] else [])) fns gls
          else if isFunctionKind b then
            processRoots g rest p incs (fns ++ (if code ≠ "" then [code] else [])) gls
          else
            processRoots g rest p incs fns (gls ++ (if code ≠ "" then [code] else []))

/-- The final assembly: includes first, then the global section followed
by one newline (when non-empty), then the function section with a
newline appended after any fragment not already ending in a blank line. -/
def assemble (incs gls fns : List String) : String :=
  let code := ""
  let code := incs.foldl
    (fun acc ic => if ic ≠ "" ∧ pyAnyStrippedLine ic then acc ++ ic else acc) code
  let code :=
    if gls ≠ [] then
      (gls.foldl
        (fun acc gc => if gc ≠ "" ∧ pyAnyStrippedLine gc then acc ++ gc else acc) code) ++ "\n"
    else code
  fns.foldl
    (fun acc fc =>
      if fc ≠ "" ∧ pyAnyStrippedLine fc then
        let acc := acc ++ fc
        if !(pyEndswith fc ("\n\n")) then acc ++ "\n" else acc
      else acc) code

/-- `CodeGenerator.generate_code(root_blocks)`: resets the `includes`
state, runs the root loop with one fresh processed set, and assembles
the three sections. -/
def CodeGenerator.generate_code (g : Graph) (roots : List Nat) (s : GenState) :
    Option (String × GenState) :=
  let s := { s with includes := [] }
  match processRoots g roots [] [] [] [] with
  | none => none
  | some (incs, fns, gls) => some (assemble incs gls fns, s)

/-! ### Connection points and the connect / disconnect operations

A connection point is identified by its owning block and its role (each
block owns at most one point per role).  Its state consists of the peer
point reference (`connected_to`) and the visual line (`connection_line`,
identified by the number it was allocated under).  The block-level
`connected_blocks` mapping is kept separately, as in the source. -/

structure PointId where
  blk : Nat
  role : Role
  deriving DecidableEq

structure PointState where
  connected_to : Option PointId := none
  connection_line : Option Nat := none
  deriving DecidableEq

/-- A block's `connected_blocks` dictionary. -/
structure BlkConn where
  top : Option Nat := none
  bottom : Option Nat := none
  inner : Option Nat := none
  left : Option Nat := none
  right : Option Nat := none
  deriving DecidableEq

def BlkConn.get (c : BlkConn) (r : Role) : Option Nat :=
  match r with
  | .TOP => c.top
  | .BOTTOM => c.bottom
  | .INNER => c.inner
  | .LEFT => c.left
  | .RIGHT => c.right

def BlkConn.set (c : BlkConn) (r : Role) (v : Option Nat) : BlkConn :=
  match r with
  | .TOP => { c with top := v }
  | .BOTTOM => { c with bottom := v }
  | .INNER => { c with inner := v }
  | .LEFT => { c with left := v }
  | .RIGHT => { c with right := v }

/-- The connection-relevant state of the whole editor: every point's
state, every block's `connected_blocks`, and the allocator for fresh
connection-line objects. -/
structure CState where
  pt : PointId → PointState
  blk : Nat → BlkConn
  nextLine : Nat

def setPt (s : CState) (p : PointId) (v : PointState) : CState :=
  { s with pt := fun q => if q = p then v else s.pt q }

def updPt (s : CState) (p : PointId) (f : PointState → PointState) : CState :=
  setPt s p (f (s.pt p))

def setBlkRole (s : CState) (i : Nat) (r : Role) (v : Option Nat) : CState :=
  { s with blk := fun j => if j = i then (s.blk j).set r v else s.blk j }

/-- `ConnectionPoint._disconnect_blocks(block1, block2, type1, type2)`:
clears the two `connected_blocks` entries, but only for the five
directional role pairings listed in the source; any other pairing is
left untouched. -/
def ConnectionPoint.disconnect_blocks (s : CState) (b1 b2 : Nat) (t1 t2 : Role) : CState :=
  match t1, t2 with
  | .BOTTOM, .TOP => setBlkRole (setBlkRole s b1 .BOTTOM none) b2 .TOP none
  | .TOP, .BOTTOM => setBlkRole (setBlkRole s b1 .TOP none) b2 .BOTTOM none
  | .INNER, .TOP => setBlkRole (setBlkRole s b1 .INNER none) b2 .TOP none
  | .LEFT, .RIGHT => setBlkRole (setBlkRole s b1 .LEFT none) b2 .RIGHT none
  | .RIGHT, .LEFT => setBlkRole (setBlkRole s b1 .RIGHT none) b2 .LEFT none
  | _, _ => s

/-- The teardown prologue of `ConnectionPoint.connect_to` (run once for
`self`, once for the target): when the point has a peer, clear the
peer's line (when it is the same line object), clear the peer's
back-reference (when it points here), run `_disconnect_blocks`, and
clear this point's line and peer. -/
def teardown (s : CState) (p : PointId) : CState :=
  match (s.pt p).connected_to with
  | none => s
  | some old =>
    let s :=
      if (s.pt old).connection_line = (s.pt p).connection_line then
        updPt s old (fun st => { st with connection_line := none })
      else s
    let s :=
      if (s.pt old).connected_to = some p then
        updPt s old (fun st => { st with connected_to := none })
      else s
    let s := ConnectionPoint.disconnect_blocks s p.blk old.blk p.role old.role
    updPt s p (fun st => { st with connection_line := none, connected_to := none })

/-- `Block.connect_points(from_point, to_point)`: record the block-level
link, for exactly the five directional role pairings of the source. -/
def Block.connect_points (s : CState) (fromP toP : PointId) : CState :=
  match fromP.role, toP.role with
  | .BOTTOM, .TOP =>
    setBlkRole (setBlkRole s fromP.blk .BOTTOM (some toP.blk)) toP.blk .TOP (some fromP.blk)
  | .TOP, .BOTTOM =>
    setBlkRole (setBlkRole s fromP.blk .TOP (some toP.blk)) toP.blk .BOTTOM (some fromP.blk)
  | .INNER, .TOP =>
    setBlkRole (setBlkRole s fromP.blk .INNER (some toP.blk)) toP.blk .TOP (some fromP.blk)
  | .LEFT, .RIGHT =>
    setBlkRole (setBlkRole s fromP.blk .LEFT (some toP.blk)) toP.blk .RIGHT (some fromP.blk)
  | .RIGHT, .LEFT =>
    setBlkRole (setBlkRole s fromP.blk .RIGHT (some toP.blk)) toP.blk .LEFT (some fromP.blk)
  | _, _ => s

/-- The role pairings (`from` first) accepted by `Block.connect_points`. -/
def compatiblePair (r1 r2 : Role) : Bool :=
  match r1, r2 with
  | .BOTTOM, .TOP => true
  | .TOP, .BOTTOM => true
  | .INNER, .TOP => true
  | .LEFT, .RIGHT => true
  | .RIGHT, .LEFT => true
  | _, _ => false

/-- `ConnectionPoint.connect_to(target_point)`: tear down any existing
connection on either endpoint, allocate a fresh connection line, link
the two points mutually, and record the block-level link. -/
def ConnectionPoint.connect_to (s : CState) (p t : PointId) : CState :=
  let s := teardown s p
  let s := teardown s t
  let line := s.nextLine
  let s := { s with nextLine := s.nextLine + 1 }
  let s := updPt s p (fun st => { st with connection_line := some line, connected_to := some t })
  let s := updPt s t (fun st => { st with connection_line := some line, connected_to := some p })
  Block.connect_points s p t

/-- One iteration of the disconnect loop in `Canvas.delete_selected`:
when the point has both a line and a peer, clear the peer's line and
back-reference and then this point's own line and peer.  The block-level
`connected_blocks` mapping is not touched. -/
def severPoint (s : CState) (p : PointId) : CState :=
  if (s.pt p).connection_line ≠ none ∧ (s.pt p).connected_to ≠ none then
    match (s.pt p).connected_to with
    | some q =>
      let s := updPt s q (fun st => { st with connection_line := none, connected_to := none })
      updPt s p (fun st => { st with connection_line := none, connected_to := none })
    | none => s
  else s

def allRoles : List Role := [.TOP, .BOTTOM, .INNER, .LEFT, .RIGHT]

/-- The connection-severing loop `Canvas.delete_selected` runs for one
deleted block: iterate `severPoint` over the block's connection points. -/
def Canvas.delete_block_connections (s : CState) (i : Nat) : CState :=
  allRoles.foldl (fun s r => severPoint s ⟨i, r⟩) s

/-! ### Definitions written from the specification's words (for
comparison against the source behaviour) -/

/-- Modelled from the spec: the claim's Return-statement search, which
walks the INNER chain's BOTTOM-linked sequence and additionally recurses
into the bodies (INNER chains) of nested If/Else/For/While control
blocks. -/
def specSearchReturn (g : Graph) : Nat → Option Nat → Bool
  | 0, _ => false
  | _ + 1, none => false
  | fuel + 1, some i =>
    isReturnBlock g i ||
    (match lookupBlock g i with
     | some b =>
       (match b.kind with
        | .IfBlock _ => specSearchReturn g fuel (connOf b .INNER)
        | .ElseBlock => specSearchReturn g fuel (connOf b .INNER)
        | .ForLoopBlock _ _ _ => specSearchReturn g fuel (connOf b .INNER)
        | .WhileLoopBlock _ => specSearchReturn g fuel (connOf b .INNER)
        | _ => false)
     | none => false) ||
    specSearchReturn g fuel (conn g i .BOTTOM)

/-- The direct BOTTOM-linked sequence of block ids starting from a given
link — the blocks the source's Return-statement search actually visits. -/
def bottomChain (g : Graph) : Nat → Option Nat → List Nat
  | 0, _ => []
  | _ + 1, none => []
  | fuel + 1, some i => i :: bottomChain g fuel (conn g i .BOTTOM)

/-- The block kinds whose `generate_code_self` reads connection state:
the Main kind (Return-statement search over its INNER chain) and the
four expression kinds (BOTTOM-presence check). -/
def inspectsConnections (k : BKind) : Bool :=
  match k with
  | .MainFunctionBlock => true
  | .OperatorBlock _ => true
  | .LogicalOperatorBlock _ => true
  | .ArrayAccessBlock _ _ => true
  | .TernaryOperatorBlock _ _ _ => true
  | _ => false

/-! ### Concrete example inputs used by the theorems -/

/-- Main block whose INNER chain holds an If block with a Return block
nested in the If body (and nothing else in the direct chain). -/
def gNested : Graph :=
  [ { id := 0, kind := .MainFunctionBlock, inner := some 1 },
    { id := 1, kind := .IfBlock "x == 0", top := some 0, inner := some 2 },
    { id := 2, kind := .ReturnBlock "0", top := some 1 } ]

/-- Main block whose INNER chain holds a (top-level) Return block. -/
def gDirectReturn : Graph :=
  [ { id := 0, kind := .MainFunctionBlock, inner := some 1 },
    { id := 1, kind := .ReturnBlock "0", top := some 0 } ]

/-- Cyclic graph: the Main block's INNER chain enters the cycle
1 → 2 → 1 formed by BOTTOM links (block 2's BOTTOM manually pointed
back to its ancestor, block 1). -/
def gCycle : Graph :=
  [ { id := 0, kind := .MainFunctionBlock, inner := some 1 },
    { id := 1, kind := .PrintfNewlineBlock, top := some 0, bottom := some 2 },
    { id := 2, kind := .PrintfNewlineBlock, top := some 1, bottom := some 1 } ]

/-- The Include → Main → Print-string scenario. -/
def gScenario : Graph :=
  [ { id := 0, kind := .IncludeBlock "stdio.h" "yes", bottom := some 1 },
    { id := 1, kind := .MainFunctionBlock, top := some 0, inner := some 2 },
    { id := 2, kind := .PrintStringBlock "Hi", top := some 1 } ]

/-- A lone, fully unconnected binary Operator block with operator `+`. -/
def gPlusAlone : Graph := [ { id := 0, kind := .OperatorBlock "+" } ]

/-- An Operator block with operator `+` whose BOTTOM is connected. -/
def gPlusChained : Graph :=
  [ { id := 0, kind := .OperatorBlock "+", bottom := some 1 },
    { id := 1, kind := .PrintfNewlineBlock, top := some 0 } ]

/-- The connection state with no connections and no allocated lines. -/
def emptyConn : CState :=
  { pt := fun _ => {}, blk := fun _ => {}, nextLine := 0 }

/-- Connect block 0's INNER point to block 1's TOP point, then block 1's
TOP point to block 2's BOTTOM point: the second call tears the first
link down from the TOP side. -/
def reconnectScenario : CState :=
  ConnectionPoint.connect_to
    (ConnectionPoint.connect_to emptyConn ⟨0, .INNER⟩ ⟨1, .TOP⟩)
    ⟨1, .TOP⟩ ⟨2, .BOTTOM⟩

/-- Blocks 0 and 1 connected BOTTOM-to-TOP (points, line and block-level
entries all set), as `connect_to` leaves them. -/
def linkedPair : CState :=
  ConnectionPoint.connect_to emptyConn ⟨0, .BOTTOM⟩ ⟨1, .TOP⟩

/-! ## Theorems -/

/-- C7: the Include (stdio.h, system) → Main → Print-string("Hi") graph
generates exactly the specified program text, byte for byte. -/
theorem include_main_print_scenario :
    (CodeGenerator.generate_code gScenario [0, 1] ⟨[]⟩).map Prod.fst =
    some "#include <stdio.h>\nint main() \x7b\n    printf(\"Hi\");\n    return 0;\n\x7d\n\n" := by
  decide

/-- C9: the generator's output is independent of its carried state (the
`includes` set is reset on every invocation, and the processed set is
local to one invocation), so invoking generation twice on the same
unchanged graph — in particular, the second time from the state the
first invocation returned — yields byte-identical output. -/
theorem generation_deterministic_idempotent :
    ∀ (g : Graph) (roots : List Nat) (s₁ s₂ : GenState),
    (CodeGenerator.generate_code g roots s₁).map Prod.fst =
    (CodeGenerator.generate_code g roots s₂).map Prod.fst := by
  intro g roots s₁ s₂
  rfl

/-- C10: the Print-string kind wraps its value in double quotes exactly
when the value does not both start and end with a double-quote
character; for the one-character value consisting of a single double
quote no wrapping happens and the emitted fragment is the unbalanced
`printf(");` plus newline. -/
theorem print_string_quote_wrapping (g : Graph) (b : BNode) (vl : String) (ind : Nat)
    (hk : b.kind = .PrintStringBlock vl) :
    genSelf g b ind =
      some (sp ind ++ "printf(" ++
        (if pyStartswith vl ("\"") && pyEndswith vl ("\"") then vl
         else "\"" ++ vl ++ "\"") ++ ");\n" ++ bottomPH) ∧
    genSelf ([] : Graph) { id := 0, kind := .PrintStringBlock "\"" } 0 =
      some "printf(\");\n\x7b\x7bBOTTOM_CODE\x7d\x7d" := by
  constructor
  · obtain ⟨i, k, t, bo, inr, l, r⟩ := b
    simp only at hk
    subst hk
    by_cases hq : pyStartswith vl ("\"") && pyEndswith vl ("\"")
    · simp [genSelf, hq]
    · simp [genSelf, hq]
  · decide

theorem print_string_quote_wrapping_witness :
    genSelf ([] : Graph) { id := 5, kind := .PrintStringBlock "Hi" } 0 =
      some (sp 0 ++ "printf(" ++
        (if pyStartswith ("Hi") ("\"") && pyEndswith ("Hi") ("\"") then "Hi"
         else "\"" ++ "Hi" ++ "\"") ++ ");\n" ++ bottomPH) :=
  (print_string_quote_wrapping ([] : Graph)
    { id := 5, kind := .PrintStringBlock "Hi" } "Hi" 0 rfl).1

/-- On the cycle 1 → 2 → 1 of `gCycle` the Return-statement loop never
finishes, whatever the fuel. -/
theorem gCycle_loop_none (fuel : Nat) :
    hasReturnLoop gCycle (some 1) fuel = none ∧
    hasReturnLoop gCycle (some 2) fuel = none := by
  induction fuel with
  | zero => exact ⟨rfl, rfl⟩
  | succ n ih =>
    constructor
    · have h : hasReturnLoop gCycle (some 1) (n + 1) = hasReturnLoop gCycle (some 2) n := rfl
      rw [h]
      exact ih.2
    · have h : hasReturnLoop gCycle (some 2) (n + 1) = hasReturnLoop gCycle (some 1) n := rfl
      rw [h]
      exact ih.1

/-- C2: on the cyclic graph `gCycle` (block 2's BOTTOM pointed back to
its ancestor, block 1, inside the Main block's INNER chain) the Main
block's Return-statement search runs forever — it has no visited set —
so generation as a whole does not terminate, contrary to the claim. -/
theorem hasReturn_cycle_divergence :
    (∀ fuel, hasReturnLoop gCycle (some 1) fuel = none) ∧
    (∀ fuel, Block.generate_code gCycle fuel 0 0 [] = none) ∧
    CodeGenerator.generate_code gCycle [0] ⟨[]⟩ = none := by
  refine ⟨fun fuel => (gCycle_loop_none fuel).1, fun fuel => ?_, by decide⟩
  cases fuel with
  | zero => rfl
  | succ n => rfl

/-- C8: the Operator fragment is built by an f-string, so its LEFT and
RIGHT markers come out single-braced; the traversal's substitution
searches for the double-braced placeholders, never finds them, and the
defaults `a` / `b` are never written.  A lone unconnected `+` Operator
block therefore generates `({LEFT_CODE} + {RIGHT_CODE})` with the
markers left verbatim — not `(a + b)` as the specification requires. -/
theorem operator_markers_unsubstituted :
    (Block.generate_code gPlusAlone (genFuel gPlusAlone) 0 0 []).map Prod.fst =
      some "(\x7bLEFT_CODE\x7d + \x7bRIGHT_CODE\x7d)" ∧
    pyContains "(\x7bLEFT_CODE\x7d + \x7bRIGHT_CODE\x7d)" leftPH = false ∧
    pyContains "(\x7bLEFT_CODE\x7d + \x7bRIGHT_CODE\x7d)" rightPH = false := by
  decide

/-- The fueled Return-statement loop, when it finishes, reports exactly
whether some block of the direct BOTTOM-linked chain is a Return block. -/
theorem hasReturnLoop_chain (g : Graph) :
    ∀ (fuel : Nat) (cur : Option Nat) (r : Bool),
    hasReturnLoop g cur fuel = some r →
    (r = true ↔ ∃ i ∈ bottomChain g fuel cur, isReturnBlock g i = true) := by
  intro fuel
  induction fuel with
  | zero =>
    intro cur r h
    cases cur <;> simp [hasReturnLoop] at h
  | succ n ih =>
    intro cur r h
    cases cur with
    | none =>
      have hr : some false = some r := h
      have hr' : r = false := (Option.some_inj.mp hr).symm
      subst hr'
      simp [bottomChain]
    | some i =>
      by_cases hi : isReturnBlock g i
      · have hr : some true = some r := by
          rw [← h]
          simp [hasReturnLoop, hi]
        have hr' : r = true := (Option.some_inj.mp hr).symm
        subst hr'
        simp only [bottomChain, true_iff]
        exact ⟨i, List.mem_cons_self i _, hi⟩
      · have h' : hasReturnLoop g (conn g i .BOTTOM) n = some r := by
          rw [← h]
          simp [hasReturnLoop, hi]
        have base := ih _ r h'
        rw [base]
        simp only [bottomChain, List.mem_cons]
        constructor
        · rintro ⟨j, hj, hjr⟩
          exact ⟨j, Or.inr hj, hjr⟩
        · rintro ⟨j, hj, hjr⟩
          rcases hj with hj | hj
          · subst hj
            exact absurd hjr (by simpa using hi)
          · exact ⟨j, hj, hjr⟩

/-- C1 (amended): the Main block injects `return 0;` exactly when its
Return-statement search reports no Return block, and — whenever that
search terminates — it reports a Return block exactly when one appears
in the direct BOTTOM-linked sequence of the INNER chain; nested control
bodies are never searched. -/
theorem main_return_search_direct_chain (g : Graph) (b : BNode) (indent : Nat) (r : Bool)
    (hk : b.kind = .MainFunctionBlock)
    (h : hasReturnStatement g b = some r) :
    genSelf g b indent = some (sp indent ++ "int main() \x7b\n" ++ innerPH ++
      (if r then "" else sp (indent + 4) ++ "return 0;\n") ++
      sp indent ++ "\x7d\n\n" ++ bottomPH) ∧
    (r = true ↔ ∃ i ∈ bottomChain g (g.length + 2) (connOf b .INNER),
      isReturnBlock g i = true) := by
  constructor
  · obtain ⟨i, k, t, bo, nn, l, rr⟩ := b
    have hk' : k = .MainFunctionBlock := hk
    subst hk'
    have h' : hasReturnStatement g ⟨i, .MainFunctionBlock, t, bo, nn, l, rr⟩ = some r := h
    simp [genSelf, h']
  · exact hasReturnLoop_chain g (g.length + 2) (connOf b .INNER) r h

theorem main_return_search_direct_chain_witness :
    genSelf gDirectReturn ⟨0, .MainFunctionBlock, none, none, some 1, none, none⟩ 0 =
      some (sp 0 ++ "int main() \x7b\n" ++ innerPH ++
        (if true then "" else sp (0 + 4) ++ "return 0;\n") ++
        sp 0 ++ "\x7d\n\n" ++ bottomPH) ∧
    (true = true ↔ ∃ i ∈ bottomChain gDirectReturn (gDirectReturn.length + 2)
        (connOf ⟨0, .MainFunctionBlock, none, none, some 1, none, none⟩ .INNER),
      isReturnBlock gDirectReturn i = true) :=
  main_return_search_direct_chain gDirectReturn
    ⟨0, .MainFunctionBlock, none, none, some 1, none, none⟩ 0 true rfl (by decide)

/-- C1 (counterexample): in `gNested` a Return block sits inside the If
body of the Main block's INNER chain — the claim's recursive search
finds it — yet the generated code still carries the injected
`return 0;` line: a nested Return does not suppress the injection. -/
theorem main_nested_return_not_suppressing :
    specSearchReturn gNested (gNested.length + 2) (conn gNested 0 .INNER) = true ∧
    (Block.generate_code gNested (genFuel gNested) 0 0 []).map Prod.fst =
      some "int main() \x7b\n    if (x == 0) \x7b\n        return 0;\n    \x7d\n    return 0;\n\x7d\n\n" := by
  decide

/-- C6 (amended): `generate_code_self` is a pure function of the block's
field values and the indent level for every kind that does not inspect
connections; and for every kind other than Main it depends on the
connection state only through whether a BOTTOM peer exists. -/
theorem genSelf_purity :
    (∀ (g₁ g₂ : Graph) (b₁ b₂ : BNode) (ind : Nat),
      b₁.kind = b₂.kind → inspectsConnections b₁.kind = false →
      genSelf g₁ b₁ ind = genSelf g₂ b₂ ind) ∧
    (∀ (g₁ g₂ : Graph) (b₁ b₂ : BNode) (ind : Nat),
      b₁.kind = b₂.kind → b₁.kind ≠ .MainFunctionBlock →
      (connOf b₁ .BOTTOM).isSome = (connOf b₂ .BOTTOM).isSome →
      genSelf g₁ b₁ ind = genSelf g₂ b₂ ind) := by
  constructor
  · intro g₁ g₂ b₁ b₂ ind hk hin
    obtain ⟨i1, k1, t1, bo1, n1, l1, r1⟩ := b₁
    obtain ⟨i2, k2, t2, bo2, n2, l2, r2⟩ := b₂
    have hk' : k1 = k2 := hk
    subst hk'
    have hin' : inspectsConnections k1 = false := hin
    cases k1 <;> simp_all [genSelf, inspectsConnections]
  · intro g₁ g₂ b₁ b₂ ind hk hm hb
    obtain ⟨i1, k1, t1, bo1, n1, l1, r1⟩ := b₁
    obtain ⟨i2, k2, t2, bo2, n2, l2, r2⟩ := b₂
    have hk' : k1 = k2 := hk
    subst hk'
    have hm' : k1 ≠ .MainFunctionBlock := hm
    have hb' : bo1.isSome = bo2.isSome := hb
    cases k1 <;> simp_all [genSelf, connOf]

theorem genSelf_purity_witness :
    genSelf gScenario { id := 9, kind := .PrintfNewlineBlock } 4 =
    genSelf ([] : Graph) { id := 3, kind := .PrintfNewlineBlock, bottom := some 7 } 4 :=
  genSelf_purity.1 gScenario ([] : Graph) { id := 9, kind := .PrintfNewlineBlock }
    { id := 3, kind := .PrintfNewlineBlock, bottom := some 7 } 4 rfl rfl

/-- C6 (counterexample): two Operator blocks with identical field values
(operator `+`) and the same indent produce different fragments when one
has a BOTTOM peer and the other does not — `generate_code_self` does
inspect connection state. -/
theorem genSelf_operator_inspects_bottom :
    ¬ (genSelf gPlusChained { id := 0, kind := .OperatorBlock "+", bottom := some 1 } 0 =
       genSelf gPlusAlone { id := 0, kind := .OperatorBlock "+" } 0) := by
  decide

/-! ### Pointwise lemmas about the connection-state operations -/

theorem pt_updPt (s : CState) (p : PointId) (f : PointState → PointState) (q : PointId) :
    (updPt s p f).pt q = if q = p then f (s.pt p) else s.pt q := rfl

theorem blk_updPt (s : CState) (p : PointId) (f : PointState → PointState) :
    (updPt s p f).blk = s.blk := rfl

theorem pt_disconnect_blocks (s : CState) (b1 b2 : Nat) (t1 t2 : Role) :
    (ConnectionPoint.disconnect_blocks s b1 b2 t1 t2).pt = s.pt := by
  cases t1 <;> cases t2 <;> rfl

theorem pt_connect_points (s : CState) (a b : PointId) :
    (Block.connect_points s a b).pt = s.pt := by
  obtain ⟨ab, ar⟩ := a
  obtain ⟨bb, br⟩ := b
  cases ar <;> cases br <;> rfl

theorem teardown_none (s : CState) (p : PointId)
    (h : (s.pt p).connected_to = none) : teardown s p = s := by
  unfold teardown
  rw [h]

/-- Tearing down a mutually-referenced connection (shared line object)
clears both endpoints' point state and touches no other point. -/
theorem teardown_clears (s : CState) (a c : PointId) (hca : c ≠ a)
    (hac : (s.pt a).connected_to = some c)
    (hcc : (s.pt c).connected_to = some a)
    (hcl : (s.pt c).connection_line = (s.pt a).connection_line) :
    ∀ q, (teardown s a).pt q =
      if q = a ∨ q = c then ⟨none, none⟩ else s.pt q := by
  intro q
  unfold teardown
  rw [hac]
  simp only [pt_updPt, pt_disconnect_blocks, hcl, if_pos, eq_self_iff_true, if_true]
  by_cases hqa : q = a
  · subst hqa
    simp [pt_updPt, hca, hcc]
  · by_cases hqc : q = c
    · subst hqc
      simp [pt_updPt, hca, hcc, hqa]
    · simp [pt_updPt, hqa, hqc, hcc]

theorem connect_points_incompatible (s : CState) (a b : PointId)
    (h : compatiblePair a.role b.role = false) :
    Block.connect_points s a b = s := by
  obtain ⟨ab, ar⟩ := a
  obtain ⟨bb, br⟩ := b
  cases ar <;> cases br <;> simp_all [compatiblePair, Block.connect_points]

/-- C3 (amended): a connection request whose role pairing is outside the
compatibility table is not rejected — the point-level link is still
fully established (mutual peer references and a shared fresh line) —
but no `connected_blocks` entry is set on either block. -/
theorem connect_incompatible_not_clean (s : CState) (a b : PointId) (hab : a ≠ b)
    (ha : (s.pt a).connected_to = none) (hb : (s.pt b).connected_to = none)
    (hcomp : compatiblePair a.role b.role = false) :
    ((ConnectionPoint.connect_to s a b).pt a).connected_to = some b ∧
    ((ConnectionPoint.connect_to s a b).pt b).connected_to = some a ∧
    ((ConnectionPoint.connect_to s a b).pt a).connection_line = some s.nextLine ∧
    ((ConnectionPoint.connect_to s a b).pt b).connection_line = some s.nextLine ∧
    (ConnectionPoint.connect_to s a b).blk = s.blk := by
  simp only [ConnectionPoint.connect_to]
  rw [teardown_none s a ha, teardown_none s b hb]
  rw [connect_points_incompatible _ a b hcomp]
  simp [pt_updPt, blk_updPt, hab, Ne.symm hab]

theorem connect_incompatible_not_clean_witness :
    ((ConnectionPoint.connect_to emptyConn ⟨7, .LEFT⟩ ⟨8, .TOP⟩).pt ⟨7, .LEFT⟩).connected_to =
      some ⟨8, .TOP⟩ ∧
    ((ConnectionPoint.connect_to emptyConn ⟨7, .LEFT⟩ ⟨8, .TOP⟩).pt ⟨8, .TOP⟩).connected_to =
      some ⟨7, .LEFT⟩ ∧
    ((ConnectionPoint.connect_to emptyConn ⟨7, .LEFT⟩ ⟨8, .TOP⟩).pt ⟨7, .LEFT⟩).connection_line =
      some emptyConn.nextLine ∧
    ((ConnectionPoint.connect_to emptyConn ⟨7, .LEFT⟩ ⟨8, .TOP⟩).pt ⟨8, .TOP⟩).connection_line =
      some emptyConn.nextLine ∧
    (ConnectionPoint.connect_to emptyConn ⟨7, .LEFT⟩ ⟨8, .TOP⟩).blk = emptyConn.blk :=
  connect_incompatible_not_clean emptyConn ⟨7, .LEFT⟩ ⟨8, .TOP⟩
    (by decide) rfl rfl rfl

/-- C3 (counterexample): connecting two TOP points — a pairing outside
the compatibility table — changes both ports (mutual peer references
and a line are set); and a self-connection (a block's BOTTOM point to
its own TOP point) is not rejected either: it records the block as its
own `connected_blocks` peer on both entries. -/
theorem connect_invalid_requests_change_state :
    ((ConnectionPoint.connect_to emptyConn ⟨0, .TOP⟩ ⟨1, .TOP⟩).pt ⟨0, .TOP⟩).connected_to =
      some ⟨1, .TOP⟩ ∧
    ((ConnectionPoint.connect_to emptyConn ⟨0, .TOP⟩ ⟨1, .TOP⟩).pt ⟨0, .TOP⟩).connection_line =
      some 0 ∧
    compatiblePair .TOP .TOP = false ∧
    ((ConnectionPoint.connect_to emptyConn ⟨0, .BOTTOM⟩ ⟨0, .TOP⟩).blk 0).bottom = some 0 ∧
    ((ConnectionPoint.connect_to emptyConn ⟨0, .BOTTOM⟩ ⟨0, .TOP⟩).blk 0).top = some 0 := by
  decide

/-- C4 (amended): when the source endpoint of a connect request already
has a peer, that prior connection is torn down symmetrically at the
point level — the old peer's point ends with no peer reference and no
line — before the new point-level link is established. -/
theorem connect_teardown_point_level (s : CState) (a b c : PointId)
    (hab : a ≠ b) (hca : c ≠ a) (hcb : c ≠ b)
    (hac : (s.pt a).connected_to = some c)
    (hcc : (s.pt c).connected_to = some a)
    (hcl : (s.pt c).connection_line = (s.pt a).connection_line)
    (hbn : (s.pt b).connected_to = none) :
    ((ConnectionPoint.connect_to s a b).pt c).connected_to = none ∧
    ((ConnectionPoint.connect_to s a b).pt c).connection_line = none ∧
    ((ConnectionPoint.connect_to s a b).pt a).connected_to = some b ∧
    ((ConnectionPoint.connect_to s a b).pt b).connected_to = some a := by
  have hTq := teardown_clears s a c hca hac hcc hcl
  have hTb : ((teardown s a).pt b).connected_to = none := by
    rw [hTq b, if_neg (by push_neg; exact ⟨Ne.symm hab, Ne.symm hcb⟩)]
    exact hbn
  simp only [ConnectionPoint.connect_to]
  rw [teardown_none (teardown s a) b hTb]
  rw [pt_connect_points]
  simp only [pt_updPt, if_neg hcb, if_neg hca, if_neg hab, if_pos rfl]
  have hc : ({ teardown s a with nextLine := (teardown s a).nextLine + 1 } : CState).pt c =
      (teardown s a).pt c := rfl
  rw [hc, hTq c, if_pos (Or.inr rfl)]
  exact ⟨rfl, rfl, rfl, rfl⟩

theorem connect_teardown_point_level_witness :
    ((ConnectionPoint.connect_to linkedPair ⟨0, .BOTTOM⟩ ⟨2, .TOP⟩).pt ⟨1, .TOP⟩).connected_to = none ∧
    ((ConnectionPoint.connect_to linkedPair ⟨0, .BOTTOM⟩ ⟨2, .TOP⟩).pt ⟨1, .TOP⟩).connection_line = none ∧
    ((ConnectionPoint.connect_to linkedPair ⟨0, .BOTTOM⟩ ⟨2, .TOP⟩).pt ⟨0, .BOTTOM⟩).connected_to =
      some ⟨2, .TOP⟩ ∧
    ((ConnectionPoint.connect_to linkedPair ⟨0, .BOTTOM⟩ ⟨2, .TOP⟩).pt ⟨2, .TOP⟩).connected_to =
      some ⟨0, .BOTTOM⟩ :=
  connect_teardown_point_level linkedPair ⟨0, .BOTTOM⟩ ⟨2, .TOP⟩ ⟨1, .TOP⟩
    (by decide) (by decide) (by decide) (by decide) (by decide) (by decide) (by decide)

/-- C4 (counterexample): a link recorded INNER→TOP (block 0's INNER to
block 1's TOP) and then torn down from the TOP side — by connecting
block 1's TOP point to block 2's BOTTOM point — is NOT cleared from the
block-level `connected_blocks` mapping: the old peer, block 0, still
records block 1 under INNER (and block 1's stale TOP entry is simply
overwritten by the new link), even though block 0's point is fully
disconnected.  The prior connection is thus not torn down symmetrically
on both sides: a residual reference remains. -/
theorem connect_teardown_block_residue :
    (reconnectScenario.blk 0).inner = some 1 ∧
    (reconnectScenario.pt ⟨0, .INNER⟩).connected_to = none ∧
    (reconnectScenario.pt ⟨0, .INNER⟩).connection_line = none ∧
    (reconnectScenario.pt ⟨1, .TOP⟩).connected_to = some ⟨2, .BOTTOM⟩ ∧
    (reconnectScenario.blk 1).top = some 2 := by
  decide

/-! ### Lemmas about the delete-time connection severing -/

theorem severPoint_blk (s : CState) (p : PointId) : (severPoint s p).blk = s.blk := by
  unfold severPoint
  split
  · split <;> rfl
  · rfl

/-- `severPoint` only ever writes the fully-cleared point state. -/
theorem severPoint_pt_cases (s : CState) (p x : PointId) :
    (severPoint s p).pt x = s.pt x ∨ (severPoint s p).pt x = ⟨none, none⟩ := by
  unfold severPoint
  split
  · split
    · by_cases h1 : x = p
      · right
        simp [pt_updPt, h1]
      · rename_i q _
        by_cases h2 : x = q
        · right
          simp [pt_updPt, h1, h2]
        · left
          simp [pt_updPt, h1, h2]
    · left
      rfl
  · left
    rfl

theorem severPoint_untouched (s : CState) (p x : PointId) (hx : x ≠ p)
    (hpx : (s.pt p).connected_to ≠ some x) :
    (severPoint s p).pt x = s.pt x := by
  unfold severPoint
  split
  · split
    · rename_i q hq
      have hxq : x ≠ q := by
        intro h
        exact hpx (h ▸ hq)
      simp [pt_updPt, hx, hxq]
    · rfl
  · rfl

theorem severPoint_clears (s : CState) (p q : PointId)
    (hq : (s.pt p).connected_to = some q)
    (hl : (s.pt p).connection_line ≠ none) :
    (severPoint s p).pt p = ⟨none, none⟩ ∧ (severPoint s p).pt q = ⟨none, none⟩ := by
  unfold severPoint
  rw [if_pos ⟨hl, by rw [hq]; exact Option.some_ne_none q⟩]
  rw [hq]
  constructor
  · simp [pt_updPt]
  · by_cases hqp : q = p
    · simp [pt_updPt, hqp]
    · simp [pt_updPt, hqp]

theorem severPoint_cleared_stays (s : CState) (p x : PointId)
    (h : s.pt x = ⟨none, none⟩) :
    (severPoint s p).pt x = ⟨none, none⟩ := by
  rcases severPoint_pt_cases s p x with hc | hc
  · rw [hc, h]
  · exact hc

theorem fold_sever_blk (i : Nat) :
    ∀ (roles : List Role) (s : CState),
    (roles.foldl (fun s r => severPoint s ⟨i, r⟩) s).blk = s.blk := by
  intro roles
  induction roles with
  | nil => intro s; rfl
  | cons r0 rest ih =>
    intro s
    rw [List.foldl_cons, ih, severPoint_blk]

theorem fold_sever_cleared_stays (i : Nat) (x : PointId) :
    ∀ (roles : List Role) (s : CState), s.pt x = ⟨none, none⟩ →
    (roles.foldl (fun s r => severPoint s ⟨i, r⟩) s).pt x = ⟨none, none⟩ := by
  intro roles
  induction roles with
  | nil => intro s h; exact h
  | cons r0 rest ih =>
    intro s h
    rw [List.foldl_cons]
    exact ih _ (severPoint_cleared_stays s ⟨i, r0⟩ x h)

/-- The severing loop clears both sides of every connection of the
deleted block's points, provided no point of the deleted block is
connected to another point of the same block. -/
theorem fold_sever_clears (i : Nat) (r : Role) (q : PointId) :
    ∀ (roles : List Role) (s : CState), r ∈ roles →
    (∀ r' : Role, (s.pt ⟨i, r'⟩).connected_to ≠ some ⟨i, r⟩) →
    (s.pt ⟨i, r⟩).connected_to = some q →
    (s.pt ⟨i, r⟩).connection_line ≠ none →
    (roles.foldl (fun s r => severPoint s ⟨i, r⟩) s).pt q = ⟨none, none⟩ ∧
    (roles.foldl (fun s r => severPoint s ⟨i, r⟩) s).pt ⟨i, r⟩ = ⟨none, none⟩ := by
  intro roles
  induction roles with
  | nil => intro s hmem; cases hmem
  | cons r0 rest ih =>
    intro s hmem hnt hq hl
    rw [List.foldl_cons]
    by_cases h0 : r0 = r
    · subst h0
      obtain ⟨h1, h2⟩ := severPoint_clears s ⟨i, r0⟩ q hq hl
      exact ⟨fold_sever_cleared_stays i q rest _ h2,
             fold_sever_cleared_stays i ⟨i, r0⟩ rest _ h1⟩
    · have hmem' : r ∈ rest := by
        rcases List.mem_cons.mp hmem with h | h
        · exact absurd h.symm h0
        · exact h
      have hpt : (severPoint s ⟨i, r0⟩).pt ⟨i, r⟩ = s.pt ⟨i, r⟩ := by
        apply severPoint_untouched
        · intro hcon
          exact h0 (congrArg PointId.role hcon).symm
        · exact hnt r0
      refine ih _ hmem' ?_ (by rw [hpt]; exact hq) (by rw [hpt]; exact hl)
      intro r'
      rcases severPoint_pt_cases s ⟨i, r0⟩ ⟨i, r'⟩ with hc | hc
      · rw [hc]
        exact hnt r'
      · rw [hc]
        exact Option.noConfusion ∘ id

/-- C5 (amended): deleting a block severs every one of its port
connections at the point level in both directions — every
previously-connected peer point ends with no peer reference and no
line — but the block-level `connected_blocks` mappings are left
completely unchanged, so dangling block-level references to the
deleted block remain. -/
theorem delete_clears_points_not_blocks (s : CState) (i : Nat) (r : Role) (q : PointId)
    (hnt : ∀ r' : Role, (s.pt ⟨i, r'⟩).connected_to ≠ some ⟨i, r⟩)
    (hq : (s.pt ⟨i, r⟩).connected_to = some q)
    (hl : (s.pt ⟨i, r⟩).connection_line ≠ none) :
    (Canvas.delete_block_connections s i).pt q = ⟨none, none⟩ ∧
    (Canvas.delete_block_connections s i).pt ⟨i, r⟩ = ⟨none, none⟩ ∧
    (Canvas.delete_block_connections s i).blk = s.blk := by
  have hmem : r ∈ allRoles := by cases r <;> simp [allRoles]
  obtain ⟨h1, h2⟩ := fold_sever_clears i r q allRoles s hmem hnt hq hl
  exact ⟨h1, h2, fold_sever_blk i allRoles s⟩

theorem delete_clears_points_not_blocks_witness :
    (Canvas.delete_block_connections linkedPair 0).pt ⟨1, .TOP⟩ = ⟨none, none⟩ ∧
    (Canvas.delete_block_connections linkedPair 0).pt ⟨0, .BOTTOM⟩ = ⟨none, none⟩ ∧
    (Canvas.delete_block_connections linkedPair 0).blk = linkedPair.blk :=
  delete_clears_points_not_blocks linkedPair 0 .BOTTOM ⟨1, .TOP⟩
    (by decide) (by decide) (by decide)

/-- C5 (counterexample): deleting block 0 of the connected pair clears
the peer's point state, but block 1's `connected_blocks[TOP]` still
references the deleted block 0 — a dangling block-level reference. -/
theorem delete_leaves_block_reference :
    ((Canvas.delete_block_connections linkedPair 0).blk 1).top = some 0 ∧
    ((Canvas.delete_block_connections linkedPair 0).pt ⟨1, .TOP⟩).connected_to = none ∧
    ((Canvas.delete_block_connections linkedPair 0).blk 0).bottom = some 1 := by
  decide

end Araknid
